import Mathlib

/-!
Verification development for the webrtc-ros-bridge client.

The embedding below translates the two source files
`receiver/signaling_channel/signaling_channel.go` and
`peer_connection_channel/webm_saver.go` into Lean definitions:

* the answer-SDP patch (`strings.Replace(answer.SDP, "m=video 0", "m=video 9", 1)`),
* the three-phase signaling session `SignalingChannel.Spin`,
* the candidate-buffering dispatcher (`handleSignalingMessage` together with the
  `OnICECandidate` callback of `PeerConnectionChannel.Spin`),
* the buffered VP8 ingestion path `WebmSaver.PushVP8` / `WebmSaver.InitWriter`,
* the direct VP8 ingestion path inside the `OnTrack` callback of
  `PeerConnectionChannel.Spin`,
* a reordering buffer for packet reassembly, modelled from the spec because the
  actual implementation (pion's samplebuilder) is an external dependency.

External collaborators (the vpx decoder, colorspace conversion, gocv mats) are
modelled as explicit parameters; machine bytes are `Nat` with explicit masking
exactly where the source masks.
-/

/- ===== Answer SDP patch (signaling_channel.go line 144) ===== -/

/-- The byte string searched for: `m=video 0`. -/
def mVideo0 : List Char := ['m', '=', 'v', 'i', 'd', 'e', 'o', ' ', '0']

/-- The replacement byte string: `m=video 9`. -/
def mVideo9 : List Char := ['m', '=', 'v', 'i', 'd', 'e', 'o', ' ', '9']

/-- Whether `p` occurs at the head of `s` (Go `strings.HasPrefix`). -/
def leadsWith : List Char → List Char → Bool
  | [], _ => true
  | _ :: _, [] => false
  | p :: ps, c :: cs => p == c && leadsWith ps cs

/-- Go `strings.Replace(s, old, new, 1)` for a nonempty pattern: the first
occurrence of `old` in `s` is replaced by `new`; everything else is kept. -/
def replaceOnce (old new : List Char) : List Char → List Char
  | [] => []
  | c :: rest =>
    if leadsWith old (c :: rest) then new ++ List.drop old.length (c :: rest)
    else c :: replaceOnce old new rest

/- ===== SignalingChannel.Spin (signaling_channel.go lines 104-167) ===== -/

/-- Observable outcome of one run of `SignalingChannel.Spin`: what was forwarded
to the negotiator on `sdpChan`, what answer body was written to the websocket,
which candidates were delivered on `candidateChan`, and whether the session
terminated on a fatal phase-1/2 error. -/
structure SignalingOutcome (σ κ : Type) where
  forwardedOffer : Option σ
  answerSent : Option (List Char)
  delivered : List κ
  fatalError : Bool
  deriving DecidableEq, Repr

/-- The phase-3 relay loop (lines 151-166): each raw message is decoded as a
candidate record; a decode failure is logged and skipped (`continue`), a
success is sent on `candidateChan`. -/
def relayCandidates {μ κ : Type} (decodeCand : μ → Option κ) : List μ → List κ
  | [] => []
  | m :: ms =>
    match decodeCand m with
    | none => relayCandidates decodeCand ms
    | some c => c :: relayCandidates decodeCand ms

/-- `SignalingChannel.Spin` after the configure directive is sent: the first
received message is decoded as the remote offer (decode failure returns, fatal,
lines 134-138); on success the offer goes to the negotiator, the answer from
the reply channel is patched with `replaceOnce` and written out (lines
141-150), and the remaining messages are relayed as candidates. -/
def signalingSpin {μ σ κ : Type} (decodeSDP : μ → Option σ) (decodeCand : μ → Option κ)
    (answer : List Char) (first : μ) (rest : List μ) : SignalingOutcome σ κ :=
  match decodeSDP first with
  | none => ⟨none, none, [], true⟩
  | some sdp =>
    ⟨some sdp, some (replaceOnce mVideo0 mVideo9 answer), relayCandidates decodeCand rest, false⟩

/- ===== Candidate buffering dispatcher
   (webm_saver.go: handleSignalingMessage lines 228-262 and the
   OnICECandidate callback, lines 273-285) ===== -/

/-- State shared between the `OnICECandidate` callback and the dispatcher:
whether a remote description has been applied, the `pendingCandidates` list,
and a record of every candidate handed to `signalCandidate` (in call order).
SDP bodies and candidates are identified by `Nat` tags. -/
structure NegotiatorState where
  remoteDesc : Option Nat
  pending : List Nat
  signalled : List Nat
  deriving DecidableEq, Repr

/-- Events serviced by the peer-connection channel: a locally discovered ICE
candidate (the `OnICECandidate` callback), a remote description arriving on
`sdpChan`, or a remote candidate arriving on `candidateChan`. -/
inductive NegEvent where
  | localCandidate (c : Nat)
  | remoteDescription (sdp : Nat)
  | remoteCandidate (c : Nat)
  deriving DecidableEq, Repr

/-- Calls made on the negotiation engine and the signaling side, in program
order. -/
inductive NegAction where
  | applyRemote (sdp : Nat)
  | createAnswer
  | publishAnswer
  | applyLocal
  | flushCandidate (c : Nat)
  | signalNow (c : Nat)
  | applyCandidate (c : Nat)
  deriving DecidableEq, Repr

def initNeg : NegotiatorState := ⟨none, [], []⟩

/-- One event handled atomically (the candidate mutex serializes the callback
against the flush).  `localCandidate`: lines 273-285 — queue while
`RemoteDescription()` is nil, otherwise signal immediately.
`remoteDescription`: lines 231-253 — `SetRemoteDescription`, `CreateAnswer`,
`pc.sdpReplyChan <- answer`, `SetLocalDescription`, then flush
`pendingCandidates` (which the source never clears).
`remoteCandidate`: lines 254-259 — `AddICECandidate`. -/
def negStep (st : NegotiatorState) : NegEvent → NegotiatorState × List NegAction
  | NegEvent.localCandidate c =>
    match st.remoteDesc with
    | none => ({ st with pending := st.pending ++ [c] }, [])
    | some _ => ({ st with signalled := st.signalled ++ [c] }, [NegAction.signalNow c])
  | NegEvent.remoteDescription sdp =>
    (⟨some sdp, st.pending, st.signalled ++ st.pending⟩,
     NegAction.applyRemote sdp :: NegAction.createAnswer :: NegAction.publishAnswer ::
       NegAction.applyLocal :: st.pending.map NegAction.flushCandidate)
  | NegEvent.remoteCandidate c => (st, [NegAction.applyCandidate c])

/-- A serialized run of the dispatcher over a list of events. -/
def negRun (st : NegotiatorState) : List NegEvent → NegotiatorState × List NegAction
  | [] => (st, [])
  | e :: es =>
    ((negRun (negStep st e).1 es).1, (negStep st e).2 ++ (negRun (negStep st e).1 es).2)

/-- Local-candidate discovery events for a list of candidates. -/
def localEvents (cs : List Nat) : List NegEvent := cs.map NegEvent.localCandidate

/- ===== FrameAssembler: decoder collaborator model ===== -/

/-- A decoded image, carrying the decoder-reported geometry `d_w`/`d_h`. -/
structure Image where
  dW : Nat
  dH : Nat
  deriving DecidableEq, Repr

/-- The vpx decoder collaborator: `init w h` is `init_decoder`, and
`step d bytes` is one `decode_frame` call followed by iterating
`vpx_codec_get_frame` — it returns whether the decode succeeded (error code 0),
the images retrievable after this submission, and the next decoder state. -/
structure Decoder (δ : Type) where
  init : Nat → Nat → δ
  step : δ → List Nat → Bool × List Image × δ

/-- Errors logged by the buffered path (decode failure line 71, nil frame from
`vpx_codec_get_frame` line 78). -/
inductive LogEvent where
  | decodeError
  | getFrameError
  deriving DecidableEq, Repr

/- ===== Buffered ingestion path: WebmSaver (webm_saver.go lines 21-110) ===== -/

/-- The `WebmSaver` fields relevant to decoding, plus a record of every
`init_decoder` call (geometry in call order). -/
structure SaverState (δ : Type) where
  codecCreated : Bool
  dec : δ
  inits : List (Nat × Nat)
  deriving DecidableEq, Repr

/-- Little-endian 32-bit read of the keyframe geometry field
(`sample.Data[6] | Data[7]<<8 | Data[8]<<16 | Data[9]<<24`, line 59). -/
def le32 (b6 b7 b8 b9 : Nat) : Nat := b6 ||| (b7 <<< 8) ||| (b8 <<< 16) ||| (b9 <<< 24)

/-- Keyframe test: the low bit of the first payload byte is clear
(`sample.Data[0]&0x1 == 0`, line 56). -/
def vp8IsKeyframe (b0 : Nat) : Bool := b0 &&& 1 == 0

/-- `width := int(raw & 0x3FFF)` (line 60). -/
def frameWidth (raw : Nat) : Nat := raw &&& 0x3FFF

/-- `height := int((raw >> 16) & 0x3FFF)` (line 61). -/
def frameHeight (raw : Nat) : Nat := (raw >>> 16) &&& 0x3FFF

/-- `WebmSaver.InitWriter` (lines 105-110): calls `init_decoder(w, h)` and sets
`codecCreated` (an init error is only logged, the flag is set regardless). -/
def initWriter {δ : Type} (D : Decoder δ) (st : SaverState δ) (width height : Nat) :
    SaverState δ :=
  ⟨true, D.init width height, st.inits ++ [(width, height)]⟩

/-- One iteration of the pop loop of `WebmSaver.PushVP8` (lines 50-102) on a
popped sample `dat`.  `none` models a Go index-out-of-range panic (the source
indexes `Data[0]` and, on keyframes, `Data[6..9]` with no length guard).
Returns the new state, the images forwarded to `imgChan` (after the
`copy_frame_to_mat` colorspace conversion, modelled by `conv`), and the errors
logged.  The gocv mat-creation and data-pointer collaborator failure branches
(lines 84-93) are modelled as always succeeding. -/
def processSample {δ γ : Type} (D : Decoder δ) (conv : Image → γ) (st : SaverState δ)
    (dat : List Nat) : Option (SaverState δ × List γ × List LogEvent) :=
  match dat[0]? with
  | none => none
  | some b0 =>
    let st1Opt : Option (SaverState δ) :=
      if vp8IsKeyframe b0 then
        match dat[6]?, dat[7]?, dat[8]?, dat[9]? with
        | some b6, some b7, some b8, some b9 =>
          let raw := le32 b6 b7 b8 b9
          if st.codecCreated then some st
          else some (initWriter D st (frameWidth raw) (frameHeight raw))
        | _, _, _, _ => none
      else some st
    match st1Opt with
    | none => none
    | some st1 =>
      match D.step st1.dec dat with
      | (ok, imgs, d2) =>
        if ok then
          match imgs with
          | [] => some (⟨st1.codecCreated, d2, st1.inits⟩, [], [LogEvent.getFrameError])
          | i :: _ => some (⟨st1.codecCreated, d2, st1.inits⟩, [conv i], [])
        else some (⟨st1.codecCreated, d2, st1.inits⟩, [], [LogEvent.decodeError])

/-- The pop loop over a list of popped samples. -/
def processSamples {δ γ : Type} (D : Decoder δ) (conv : Image → γ) (st : SaverState δ) :
    List (List Nat) → Option (SaverState δ × List γ × List LogEvent)
  | [] => some (st, [], [])
  | dat :: rest =>
    match processSample D conv st dat with
    | none => none
    | some (st1, out1, lg1) =>
      match processSamples D conv st1 rest with
      | none => none
      | some (st2, out2, lg2) => some (st2, out1 ++ out2, lg1 ++ lg2)

/- ===== Direct ingestion path: OnTrack callback
   (webm_saver.go lines 302-388) ===== -/

/-- A parsed VP8 packet as consumed by the direct path: the VP8 start-of-frame
bit `S`, the RTP marker bit, and the VP8 payload bytes. -/
structure VP8Packet where
  sBit : Bool
  marker : Bool
  payload : List Nat
  deriving DecidableEq, Repr

/-- Loop state of the direct path.  `currentFrame = none` models the Go nil
slice (set at line 386); `some []` is the initial empty non-nil slice of line
311 — the source distinguishes the two at line 328. -/
structure DirectState (δ : Type) where
  dec : δ
  currentFrame : Option (List Nat)
  seenKeyFrame : Bool
  deriving DecidableEq, Repr

/-- Initial direct-path state: `init_decoder(&codec, 640, 480)` (line 305-310),
`currentFrame := []byte{}`, `seenKeyFrame := false`. -/
def directInit {δ : Type} (D : Decoder δ) : DirectState δ :=
  ⟨D.init 640 480, some [], false⟩

/-- One iteration of the direct-path packet loop (lines 314-387).  `none`
models the index panic on `vp8Packet.Payload[0]` for an empty payload.
`saveImg` models what is done with each retrieved image (JPEG save after
colorspace conversion). -/
def directStep {δ γ : Type} (D : Decoder δ) (saveImg : Image → γ) (st : DirectState δ)
    (p : VP8Packet) : Option (DirectState δ × List γ) :=
  match p.payload[0]? with
  | none => none
  | some b0 =>
    let isKeyFrame := b0 &&& 1
    if !st.seenKeyFrame && isKeyFrame == 1 then some (st, [])
    else if st.currentFrame == none && !p.sBit then some (st, [])
    else
      let cf := st.currentFrame.getD [] ++ p.payload
      if !p.marker then some (⟨st.dec, some cf, true⟩, [])
      else if cf.length == 0 then some (⟨st.dec, some cf, true⟩, [])
      else
        match D.step st.dec cf with
        | (ok, imgs, d2) =>
          if ok then some (⟨d2, none, true⟩, imgs.map saveImg)
          else some (⟨d2, some cf, true⟩, [])

/-- The direct-path loop over a list of packets. -/
def directRun {δ γ : Type} (D : Decoder δ) (saveImg : Image → γ) (st : DirectState δ) :
    List VP8Packet → Option (DirectState δ × List γ)
  | [] => some (st, [])
  | p :: ps =>
    match directStep D saveImg st p with
    | none => none
    | some (st1, out1) =>
      match directRun D saveImg st1 ps with
      | none => none
      | some (st2, out2) => some (st2, out1 ++ out2)

/- ===== Concrete decoder instances used for evaluation ===== -/

/-- A decoder that records every `init_decoder` geometry, accepts every frame,
and yields no images. -/
def logInitDecoder : Decoder (List (Nat × Nat)) :=
  ⟨fun w h => [(w, h)], fun d _ => (true, [], d)⟩

/-- A decoder that records every submitted byte string and rejects exactly the
first submission. -/
def logSubmitDecoder : Decoder (List (List Nat)) :=
  ⟨fun _ _ => [], fun d bytes => (d.length != 0, [], d ++ [bytes])⟩

/-- A decoder that yields two buffered images on every successful submission. -/
def twoImageDecoder : Decoder Nat :=
  ⟨fun _ _ => 0, fun d _ => (true, [⟨2, 3⟩, ⟨4, 5⟩], d + 1)⟩

/- ===== Reordering buffer, modelled from the spec (for C4) ===== -/

/-- A transport packet as seen by the reordering buffer: sequence number,
terminal-fragment (RTP marker) flag, payload bytes. -/
structure RBPacket where
  seq : Nat
  terminal : Bool
  payload : List Nat
  deriving DecidableEq, Repr

/-- Modelled from the spec: the packet reordering buffer (the pion
samplebuilder instantiated at webm_saver.go line 34 with a lookahead window of
200 packets) is an external dependency whose code is not under `src/`.
Spec 4.3 steps 1-2: packets are keyed by sequence number in a bounded
lookahead window of 200 packets, packets that fall outside the window are
dropped, and completed samples are popped in sequence order once all packets
from a start fragment through a terminal-fragment flag are present
contiguously; a gap abandoned by the sliding window no longer blocks later
samples.  `buf` is kept sorted by sequence number, `nextSeq` is the next
sequence number to consume, `lastSeq` the highest sequence number pushed. -/
structure ReorderBuffer where
  buf : List RBPacket
  nextSeq : Option Nat
  lastSeq : Nat
  deriving DecidableEq, Repr

def emptyReorderBuffer : ReorderBuffer := ⟨[], none, 0⟩

/-- The lookahead window capacity (spec 4.3: 200 packets). -/
def maxLatePackets : Nat := 200

/-- Insert a packet into the sorted buffer, ignoring duplicate sequence
numbers. -/
def insertSorted (p : RBPacket) : List RBPacket → List RBPacket
  | [] => [p]
  | q :: qs =>
    if p.seq < q.seq then p :: q :: qs
    else if p.seq == q.seq then q :: qs
    else q :: insertSorted p qs

/-- Modelled from the spec: pushing one packet.  The packet is inserted, every
packet that has fallen out of the 200-packet lookahead window is dropped, and
if the awaited sequence number itself fell out of the window the consume
pointer gives the gap up and advances to the oldest buffered packet. -/
def rbPush (rb : ReorderBuffer) (p : RBPacket) : ReorderBuffer :=
  let last := max rb.lastSeq p.seq
  let buf1 := (insertSorted p rb.buf).filter (fun q => decide (last ≤ q.seq + maxLatePackets))
  let ns :=
    match rb.nextSeq with
    | none => some p.seq
    | some s =>
      if s + maxLatePackets < last then
        match buf1 with
        | [] => none
        | q :: _ => some q.seq
      else some s
  ⟨buf1, ns, last⟩

/-- Scan the sorted buffer for the contiguous run `s, s+1, ...` ending at a
terminal-fragment flag; returns the concatenated payload and the terminal
sequence number. -/
def scanSample : List RBPacket → Nat → Option (List Nat × Nat)
  | [], _ => none
  | q :: qs, s =>
    if q.seq == s then
      if q.terminal then some (q.payload, q.seq)
      else
        match scanSample qs (s + 1) with
        | none => none
        | some (rest, t) => some (q.payload ++ rest, t)
    else if q.seq < s then scanSample qs s
    else none

/-- Modelled from the spec: popping the next completed sample in sequence
order, if any; consumed packets are removed and the consume pointer advances
past the terminal fragment. -/
def rbPop (rb : ReorderBuffer) : Option (List Nat) × ReorderBuffer :=
  match rb.nextSeq with
  | none => (none, rb)
  | some s =>
    match scanSample rb.buf s with
    | none => (none, rb)
    | some (bytes, t) =>
      (some bytes, ⟨rb.buf.filter (fun q => decide (t < q.seq)), some (t + 1), rb.lastSeq⟩)

/-- Push a list of packets in order. -/
def rbPushMany (rb : ReorderBuffer) (ps : List RBPacket) : ReorderBuffer :=
  ps.foldl rbPush rb

/- ===== Theorems: helper lemmas for the SDP patch ===== -/

theorem leadsWith_append (old b : List Char) : leadsWith old (old ++ b) = true := by
  induction old with
  | nil => rfl
  | cons c cs ih => simp [leadsWith, ih]

theorem replaceOnce_here (old new b : List Char) (hne : old ≠ []) :
    replaceOnce old new (old ++ b) = new ++ b := by
  match old, hne with
  | c :: cs, _ =>
    show replaceOnce (c :: cs) new (c :: (cs ++ b)) = new ++ b
    rw [replaceOnce]
    rw [show leadsWith (c :: cs) (c :: (cs ++ b)) = true from leadsWith_append (c :: cs) b]
    simp

theorem replaceOnce_first (a b : List Char)
    (hfirst : ∀ i, i < a.length → leadsWith mVideo0 (List.drop i (a ++ (mVideo0 ++ b))) = false) :
    replaceOnce mVideo0 mVideo9 (a ++ (mVideo0 ++ b)) = a ++ (mVideo9 ++ b) := by
  induction a with
  | nil =>
    simp only [List.nil_append]
    exact replaceOnce_here mVideo0 mVideo9 b (by simp [mVideo0])
  | cons x a ih =>
    have h0 : leadsWith mVideo0 (x :: (a ++ (mVideo0 ++ b))) = false := by
      have := hfirst 0 (by simp)
      simpa using this
    show replaceOnce mVideo0 mVideo9 (x :: (a ++ (mVideo0 ++ b))) = x :: (a ++ (mVideo9 ++ b))
    rw [replaceOnce, h0]
    simp only [Bool.false_eq_true, if_false]
    have ih' := ih (fun i hi => by
      have := hfirst (i + 1) (by simpa using Nat.succ_lt_succ hi)
      simpa [List.drop_succ_cons] using this)
    rw [ih']

theorem replaceOnce_none (old new s : List Char)
    (h : ∀ i, leadsWith old (List.drop i s) = false) : replaceOnce old new s = s := by
  induction s with
  | nil => rfl
  | cons c rest ih =>
    have h0 : leadsWith old (c :: rest) = false := by simpa using h 0
    rw [replaceOnce, h0]
    simp only [Bool.false_eq_true, if_false]
    rw [ih (fun i => by simpa [List.drop_succ_cons] using h (i + 1))]

/-- C2: every answer whose SDP body decomposes as `a ++ "m=video 0" ++ b` with
no occurrence of the pattern starting inside `a` (i.e. this is the first
occurrence) is transmitted by the signaling session with exactly that
occurrence rewritten to `"m=video 9"`; the prefix `a` and the suffix `b`
(hence every other occurrence and every other part of the body) are unchanged. -/
theorem c2_answer_patch {μ σ κ : Type} (dSDP : μ → Option σ) (dCand : μ → Option κ)
    (first : μ) (rest : List μ) (sdp : σ) (hs : dSDP first = some sdp)
    (a b : List Char)
    (hfirst : ∀ i, i < a.length → leadsWith mVideo0 (List.drop i (a ++ (mVideo0 ++ b))) = false) :
    (signalingSpin dSDP dCand (a ++ (mVideo0 ++ b)) first rest).answerSent
      = some (a ++ (mVideo9 ++ b)) := by
  unfold signalingSpin
  rw [hs]
  simp [replaceOnce_first a b hfirst]

/-- Witness for C2 at a concrete body `"xm=video 0"`. -/
theorem c2_answer_patch_witness :
    (signalingSpin (fun _ : Nat => some 0) (fun n : Nat => some n)
        (['x'] ++ (mVideo0 ++ [])) 0 []).answerSent = some (['x'] ++ (mVideo9 ++ [])) :=
  c2_answer_patch (fun _ : Nat => some 0) (fun n : Nat => some n) 0 [] 0 rfl ['x'] []
    (by decide)

/-- C6: a decode failure on the message awaited as the remote offer terminates
the session as fatal with nothing forwarded to the negotiator, while in the
candidate-relay phase a decode failure skips exactly that message and the next
well-formed candidate is still delivered. -/
theorem c6_decode_failure_phases {μ σ κ : Type} (dSDP : μ → Option σ) (dCand : μ → Option κ)
    (ans : List Char) (first : μ) (rest : List μ) (m m2 : μ) (ms : List μ) (c : κ)
    (hfatal : dSDP first = none) (hbad : dCand m = none) (hgood : dCand m2 = some c) :
    signalingSpin dSDP dCand ans first rest = ⟨none, none, [], true⟩
  ∧ relayCandidates dCand (m :: m2 :: ms) = c :: relayCandidates dCand ms := by
  constructor
  · unfold signalingSpin
    rw [hfatal]
  · rw [relayCandidates, hbad, relayCandidates, hgood]

/-- Witness for C6: a decoder rejecting everything makes phase 1 fatal, and in
phase 3 the malformed record `0` is skipped while candidate `1` is delivered. -/
theorem c6_decode_failure_phases_witness :
    signalingSpin (fun _ : Nat => (none : Option Nat))
        (fun n : Nat => if n == 0 then none else some n) [] 0 [] = ⟨none, none, [], true⟩
  ∧ relayCandidates (fun n : Nat => if n == 0 then none else some n) (0 :: 1 :: [])
      = 1 :: relayCandidates (fun n : Nat => if n == 0 then none else some n) [] :=
  c6_decode_failure_phases (fun _ : Nat => (none : Option Nat))
    (fun n : Nat => if n == 0 then none else some n) [] 0 [] 0 1 [] 1 rfl rfl rfl

/- ===== Negotiator run lemmas ===== -/

theorem negRun_localPre (cs : List Nat) (pend sig : List Nat) :
    negRun ⟨none, pend, sig⟩ (localEvents cs) = (⟨none, pend ++ cs, sig⟩, []) := by
  induction cs generalizing pend with
  | nil => simp [negRun, localEvents]
  | cons c cs ih =>
    have hcons : localEvents (c :: cs) = NegEvent.localCandidate c :: localEvents cs := rfl
    have hstep : negStep ⟨none, pend, sig⟩ (NegEvent.localCandidate c)
        = (⟨none, pend ++ [c], sig⟩, []) := rfl
    rw [hcons, negRun, hstep]
    rw [ih (pend ++ [c])]
    simp

theorem negRun_localPost (cs : List Nat) (sd : Nat) (pend sig : List Nat) :
    negRun ⟨some sd, pend, sig⟩ (localEvents cs)
      = (⟨some sd, pend, sig ++ cs⟩, cs.map NegAction.signalNow) := by
  induction cs generalizing sig with
  | nil => simp [negRun, localEvents]
  | cons c cs ih =>
    have hcons : localEvents (c :: cs) = NegEvent.localCandidate c :: localEvents cs := rfl
    have hstep : negStep ⟨some sd, pend, sig⟩ (NegEvent.localCandidate c)
        = (⟨some sd, pend, sig ++ [c]⟩, [NegAction.signalNow c]) := rfl
    rw [hcons, negRun, hstep]
    rw [ih (sig ++ [c])]
    simp

theorem negRun_append (evs1 evs2 : List NegEvent) (st : NegotiatorState) :
    negRun st (evs1 ++ evs2)
      = ((negRun (negRun st evs1).1 evs2).1,
         (negRun st evs1).2 ++ (negRun (negRun st evs1).1 evs2).2) := by
  induction evs1 generalizing st with
  | nil => simp [negRun]
  | cons e es ih =>
    simp only [List.cons_append, negRun, List.append_eq]
    rw [ih (negStep st e).1]
    simp [List.append_assoc]

/-- C1: starting from the initial negotiator state, every local candidate
discovered before the remote description is queued in discovery order and none
is dropped (and nothing is signalled yet); when the remote description event is
handled the whole buffer is flushed, in discovery order, as the tail of the
handler's call sequence; and over a full serialized run the signalled sequence
is exactly the pre-description candidates (each exactly once, in order)
followed by the post-description candidates, each of which was signalled
immediately at its own event without entering the queue (the pending list
stays unchanged after the flush). -/
theorem c1_candidate_buffering (cs1 cs2 : List Nat) (sdp : Nat) :
    negRun initNeg (localEvents cs1) = (⟨none, cs1, []⟩, [])
  ∧ (negStep ⟨none, cs1, []⟩ (NegEvent.remoteDescription sdp)).2
      = NegAction.applyRemote sdp :: NegAction.createAnswer :: NegAction.publishAnswer ::
          NegAction.applyLocal :: cs1.map NegAction.flushCandidate
  ∧ negRun initNeg (localEvents cs1 ++ NegEvent.remoteDescription sdp :: localEvents cs2)
      = (⟨some sdp, cs1, cs1 ++ cs2⟩,
         NegAction.applyRemote sdp :: NegAction.createAnswer :: NegAction.publishAnswer ::
           NegAction.applyLocal ::
             (cs1.map NegAction.flushCandidate ++ cs2.map NegAction.signalNow)) := by
  have h1 : negRun initNeg (localEvents cs1) = (⟨none, cs1, []⟩, []) := by
    simpa [initNeg] using negRun_localPre cs1 [] []
  refine ⟨h1, rfl, ?_⟩
  rw [negRun_append, h1]
  have hstep : negStep ⟨none, cs1, []⟩ (NegEvent.remoteDescription sdp)
      = (⟨some sdp, cs1, cs1⟩,
         NegAction.applyRemote sdp :: NegAction.createAnswer :: NegAction.publishAnswer ::
           NegAction.applyLocal :: cs1.map NegAction.flushCandidate) := rfl
  rw [negRun, hstep]
  rw [negRun_localPost cs2 sdp cs1 cs1]
  simp

/-- C5 counterexample: at a concrete remote-description event the dispatcher's
call sequence publishes the answer on the reply channel BEFORE applying it as
the local description, so the order claimed (apply local before publish) is
false on the code. -/
theorem c5_counterexample :
    (negStep initNeg (NegEvent.remoteDescription 7)).2
      = [NegAction.applyRemote 7, NegAction.createAnswer, NegAction.publishAnswer,
         NegAction.applyLocal]
  ∧ (negStep initNeg (NegEvent.remoteDescription 7)).2
      ≠ [NegAction.applyRemote 7, NegAction.createAnswer, NegAction.applyLocal,
         NegAction.publishAnswer] := by decide

/-- C5 (amended): for every remote-description event the dispatcher applies the
remote description, requests (creates) an answer, publishes the answer on the
reply channel, then applies the answer as the local description, and only then
flushes the pending-candidate buffer under the lock, in discovery order. -/
theorem c5_amended_order (st : NegotiatorState) (sdp : Nat) :
    (negStep st (NegEvent.remoteDescription sdp)).2
      = NegAction.applyRemote sdp :: NegAction.createAnswer :: NegAction.publishAnswer ::
          NegAction.applyLocal :: st.pending.map NegAction.flushCandidate := rfl

/- ===== Buffered-path processing lemmas ===== -/

theorem processSample_nonkeyframe_step {δ γ : Type} (D : Decoder δ) (conv : Image → γ)
    (st : SaverState δ) (dat : List Nat) (b0 : Nat) (ok : Bool) (imgs : List Image) (dd : δ)
    (hb : dat[0]? = some b0) (hk : vp8IsKeyframe b0 = false)
    (hD : D.step st.dec dat = (ok, imgs, dd)) :
    processSample D conv st dat
      = some (⟨st.codecCreated, dd, st.inits⟩,
          (if ok then (imgs.take 1).map conv else []),
          (if ok then (if imgs.isEmpty then [LogEvent.getFrameError] else [])
           else [LogEvent.decodeError])) := by
  cases ok <;> cases imgs <;> simp [processSample, hb, hk, hD]

theorem processSample_nonkeyframe {δ γ : Type} (D : Decoder δ) (conv : Image → γ)
    (st : SaverState δ) (dat : List Nat) (b0 : Nat)
    (hb : dat[0]? = some b0) (hk : vp8IsKeyframe b0 = false) :
    ∃ dd out lg, processSample D conv st dat = some (⟨st.codecCreated, dd, st.inits⟩, out, lg) := by
  rcases hD : D.step st.dec dat with ⟨ok, imgs, dd⟩
  exact ⟨dd, _, _, processSample_nonkeyframe_step D conv st dat b0 ok imgs dd hb hk hD⟩

theorem processSample_keyframe_init {δ γ : Type} (D : Decoder δ) (conv : Image → γ)
    (st : SaverState δ) (b0 a1 a2 a3 a4 a5 b6 b7 b8 b9 : Nat) (rest : List Nat)
    (hk : vp8IsKeyframe b0 = true) (hcc : st.codecCreated = false) :
    ∃ dd out lg,
      processSample D conv st (b0 :: a1 :: a2 :: a3 :: a4 :: a5 :: b6 :: b7 :: b8 :: b9 :: rest)
        = some (⟨true, dd,
            st.inits ++ [(frameWidth (le32 b6 b7 b8 b9), frameHeight (le32 b6 b7 b8 b9))]⟩,
            out, lg) := by
  rcases hD : D.step
      (initWriter D st (frameWidth (le32 b6 b7 b8 b9)) (frameHeight (le32 b6 b7 b8 b9))).dec
      (b0 :: a1 :: a2 :: a3 :: a4 :: a5 :: b6 :: b7 :: b8 :: b9 :: rest) with ⟨ok, imgs, dd⟩
  cases ok
  · exact ⟨dd, [], [LogEvent.decodeError], by simp [processSample, hk, hcc, initWriter] at hD ⊢; simp [hD]⟩
  · cases imgs with
    | nil => exact ⟨dd, [], [LogEvent.getFrameError], by simp [processSample, hk, hcc, initWriter] at hD ⊢; simp [hD]⟩
    | cons i is => exact ⟨dd, [conv i], [], by simp [processSample, hk, hcc, initWriter] at hD ⊢; simp [hD]⟩

theorem processSample_keyframe_created {δ γ : Type} (D : Decoder δ) (conv : Image → γ)
    (st : SaverState δ) (b0 a1 a2 a3 a4 a5 b6 b7 b8 b9 : Nat) (rest : List Nat)
    (hk : vp8IsKeyframe b0 = true) (hcc : st.codecCreated = true) :
    ∃ dd out lg,
      processSample D conv st (b0 :: a1 :: a2 :: a3 :: a4 :: a5 :: b6 :: b7 :: b8 :: b9 :: rest)
        = some (⟨st.codecCreated, dd, st.inits⟩, out, lg) := by
  rcases hD : D.step st.dec
      (b0 :: a1 :: a2 :: a3 :: a4 :: a5 :: b6 :: b7 :: b8 :: b9 :: rest) with ⟨ok, imgs, dd⟩
  cases ok
  · exact ⟨dd, [], [LogEvent.decodeError], by simp [processSample, hk, hcc, hD]⟩
  · cases imgs with
    | nil => exact ⟨dd, [], [LogEvent.getFrameError], by simp [processSample, hk, hcc, hD]⟩
    | cons i is => exact ⟨dd, [conv i], [], by simp [processSample, hk, hcc, hD]⟩

theorem processSample_none_short_keyframe {δ γ : Type} (D : Decoder δ) (conv : Image → γ)
    (st : SaverState δ) (dat : List Nat) (b0 : Nat)
    (hb : dat[0]? = some b0) (hk : vp8IsKeyframe b0 = true) (hlen : dat.length < 10) :
    processSample D conv st dat = none := by
  have h9 : dat[9]? = none := by
    rw [List.getElem?_eq_none_iff]
    omega
  cases h6 : dat[6]? <;> cases h7 : dat[7]? <;> cases h8 : dat[8]? <;>
    simp [processSample, hb, hk, h6, h7, h8, h9]

/-- C3: a popped sample is treated as a keyframe exactly when the low bit of
its first payload byte is clear; on a keyframe with at least 10 payload bytes
the decoder (when none exists yet) is initialized with width
`le32(bytes 6..9) & 0x3FFF` and height `(le32(bytes 6..9) >> 16) & 0x3FFF`,
while a non-keyframe sample never initializes it; and concretely the geometry
bytes `[128, 2, 224, 1]` decode to 640x480, so a keyframe sample carrying them
initializes the decoder with exactly (640, 480). -/
theorem c3_keyframe_geometry {δ γ : Type} (D : Decoder δ) (conv : Image → γ)
    (st : SaverState δ) (b0 a1 a2 a3 a4 a5 b6 b7 b8 b9 : Nat) (rest : List Nat)
    (hcc : st.codecCreated = false) :
    (vp8IsKeyframe b0 = true ↔ b0 &&& 1 = 0)
  ∧ (vp8IsKeyframe b0 = true →
      ∃ dd out lg,
        processSample D conv st (b0 :: a1 :: a2 :: a3 :: a4 :: a5 :: b6 :: b7 :: b8 :: b9 :: rest)
          = some (⟨true, dd,
              st.inits ++ [(frameWidth (le32 b6 b7 b8 b9), frameHeight (le32 b6 b7 b8 b9))]⟩,
              out, lg))
  ∧ (vp8IsKeyframe b0 = false →
      ∃ dd out lg,
        processSample D conv st (b0 :: a1 :: a2 :: a3 :: a4 :: a5 :: b6 :: b7 :: b8 :: b9 :: rest)
          = some (⟨false, dd, st.inits⟩, out, lg))
  ∧ frameWidth (le32 128 2 224 1) = 640
  ∧ frameHeight (le32 128 2 224 1) = 480
  ∧ processSample logInitDecoder (fun i => i) ⟨false, [], []⟩ [0, 0, 0, 0, 0, 0, 128, 2, 224, 1]
      = some (⟨true, [(640, 480)], [(640, 480)]⟩, [], [LogEvent.getFrameError]) := by
  refine ⟨by simp [vp8IsKeyframe], ?_, ?_, by decide, by decide, by decide⟩
  · intro hk
    exact processSample_keyframe_init D conv st b0 a1 a2 a3 a4 a5 b6 b7 b8 b9 rest hk hcc
  · intro hk
    have h := processSample_nonkeyframe D conv st
      (b0 :: a1 :: a2 :: a3 :: a4 :: a5 :: b6 :: b7 :: b8 :: b9 :: rest) b0 (by simp) hk
    rwa [hcc] at h

/-- Witness for C3: the concrete keyframe sample with geometry bytes for
640x480 initializes a fresh decoder with exactly (640, 480). -/
theorem c3_keyframe_geometry_witness :
    processSample logInitDecoder (fun i => i) ⟨false, [], []⟩ [0, 0, 0, 0, 0, 0, 128, 2, 224, 1]
      = some (⟨true, [(640, 480)], [(640, 480)]⟩, [], [LogEvent.getFrameError]) :=
  (c3_keyframe_geometry logInitDecoder (fun i => i) ⟨false, [], []⟩
    0 0 0 0 0 0 128 2 224 1 [] rfl).2.2.2.2.2

/-- C10: `processSample` indexes payload byte 0 always and bytes 6..9 on every
keyframe with no length guard: the empty sample and any keyframe sample
shorter than 10 bytes hit the out-of-range branch (`none`), any keyframe
sample with at least 10 bytes and any non-keyframe sample with at least one
byte do not, and the error branch is reachable at the interface — a 6-byte
keyframe payload produces `none` for every decoder and every state. -/
theorem c10_geometry_bounds {δ γ : Type} (D : Decoder δ) (conv : Image → γ)
    (st : SaverState δ) (dat : List Nat)
    (b0 a1 a2 a3 a4 a5 b6 b7 b8 b9 : Nat) (rest : List Nat) :
    processSample D conv st [] = none
  ∧ (dat[0]? = some b0 → vp8IsKeyframe b0 = true → dat.length < 10 →
      processSample D conv st dat = none)
  ∧ (vp8IsKeyframe b0 = true →
      (processSample D conv st
        (b0 :: a1 :: a2 :: a3 :: a4 :: a5 :: b6 :: b7 :: b8 :: b9 :: rest)).isSome = true)
  ∧ (dat[0]? = some b0 → vp8IsKeyframe b0 = false →
      (processSample D conv st dat).isSome = true)
  ∧ processSample D conv st [0, 0, 0, 0, 0, 0] = none := by
  refine ⟨rfl, ?_, ?_, ?_, ?_⟩
  · intro hb hk hlen
    exact processSample_none_short_keyframe D conv st dat b0 hb hk hlen
  · intro hk
    by_cases hcc : st.codecCreated = true
    · obtain ⟨dd, out, lg, h⟩ :=
        processSample_keyframe_created D conv st b0 a1 a2 a3 a4 a5 b6 b7 b8 b9 rest hk hcc
      simp [h]
    · obtain ⟨dd, out, lg, h⟩ :=
        processSample_keyframe_init D conv st b0 a1 a2 a3 a4 a5 b6 b7 b8 b9 rest hk
          (by simpa using hcc)
      simp [h]
  · intro hb hk
    obtain ⟨dd, out, lg, h⟩ := processSample_nonkeyframe D conv st dat b0 hb hk
    simp [h]
  · exact processSample_none_short_keyframe D conv st [0, 0, 0, 0, 0, 0] 0 rfl rfl (by decide)

/-- Witness for C10: a 10-byte keyframe sample is processed without hitting
the out-of-range branch, while the 6-byte keyframe sample hits it. -/
theorem c10_geometry_bounds_witness :
    (processSample logInitDecoder (fun i => i) ⟨false, [], []⟩
        [0, 1, 2, 3, 4, 5, 6, 7, 8, 9]).isSome = true
  ∧ processSample logInitDecoder (fun i => i) ⟨false, [], []⟩ [0, 0, 0, 0, 0, 0] = none :=
  ⟨(c10_geometry_bounds logInitDecoder (fun i => i) ⟨false, [], []⟩ []
      0 1 2 3 4 5 6 7 8 9 []).2.2.1 rfl,
   (c10_geometry_bounds logInitDecoder (fun i => i) ⟨false, [], []⟩ []
      0 1 2 3 4 5 6 7 8 9 []).2.2.2.2⟩

/-- C4: pushing packets with (sequence, terminal-flag) pairs
(1,false),(2,false),(3,true),(5,false),(6,true) into the modelled reordering
buffer yields the complete sample made of the payloads of packets 1,2,3 in
order; with packet 4 still missing no sample is ready, but the assembler does
not wait forever: as soon as the stream advances far enough that sequence 4
falls out of the 200-packet lookahead window, the gap is abandoned and the
sample made of the payloads of packets 5,6 is emitted. -/
theorem c4_missing_packet :
    (rbPop (rbPushMany emptyReorderBuffer
        [⟨1, false, [11]⟩, ⟨2, false, [12]⟩, ⟨3, true, [13]⟩])).1 = some [11, 12, 13]
  ∧ (rbPop (rbPushMany (rbPop (rbPushMany emptyReorderBuffer
        [⟨1, false, [11]⟩, ⟨2, false, [12]⟩, ⟨3, true, [13]⟩])).2
        [⟨5, false, [15]⟩, ⟨6, true, [16]⟩])).1 = none
  ∧ (rbPop (rbPush (rbPushMany (rbPop (rbPushMany emptyReorderBuffer
        [⟨1, false, [11]⟩, ⟨2, false, [12]⟩, ⟨3, true, [13]⟩])).2
        [⟨5, false, [15]⟩, ⟨6, true, [16]⟩]) ⟨205, false, [99]⟩)).1 = some [15, 16] := by
  decide

/-- C7 evaluated at the failing input.  Buffered path: a decoder that rejects
sample [1] and accepts sample [3] leaves the saver state (other than the
decoder handle) unchanged and submits sample [3] on its own — as the claim
says.  Direct path: after the decoder rejects frame [0], the `continue` at
line 345 skips the `currentFrame = nil` cleanup, so the next submission is
[0, 3] — frame [0]'s bytes prepended to frame [3] — not [3]: the failed frame
is retained, not skipped. -/
theorem c7_direct_path_retains_failed_frame :
    processSamples logSubmitDecoder (fun i => i) ⟨true, [], []⟩ [[1], [3]]
      = some (⟨true, [[1], [3]], []⟩, [], [LogEvent.decodeError, LogEvent.getFrameError])
  ∧ directRun logSubmitDecoder (fun i => i) (directInit logSubmitDecoder)
        [⟨true, true, [0]⟩, ⟨true, true, [3]⟩]
      = some (⟨[[0], [0, 3]], none, true⟩, [])
  ∧ ([0, 3] : List Nat) ≠ [3] := by decide

/-- C8 counterexample: a successful submission after which the decoder has two
buffered images forwards only the first one in the buffered path, and a
successful submission after which the decoder has zero images is logged as an
error rather than treated as a valid outcome — refuting "retrieves zero or
more decoded images (zero is a valid, non-error outcome) and forwards every
retrieved image". -/
theorem c8_counterexample :
    processSample twoImageDecoder (fun i => i) ⟨true, 0, []⟩ [1]
      = some (⟨true, 1, []⟩, [Image.mk 2 3], [])
  ∧ ([Image.mk 2 3] : List Image) ≠ [Image.mk 2 3, Image.mk 4 5]
  ∧ processSample logInitDecoder (fun i => i) ⟨true, [], []⟩ [1]
      = some (⟨true, [], []⟩, [], [LogEvent.getFrameError]) := by
  decide

/-- C8 (amended): after a successful decoder submission the buffered path
requests a single decoded image — if none is available it logs an error and
skips the sample, otherwise it forwards exactly the first image after
colorspace conversion — while the direct path retrieves and forwards every
available image. -/
theorem c8_amended_single_image {δ γ : Type} (D : Decoder δ) (conv saveImg : Image → γ)
    (st : SaverState δ) (dat : List Nat) (b0 : Nat) (imgs imgs2 : List Image) (dd dd2 : δ)
    (stD : DirectState δ) (p : VP8Packet) (cf0 : List Nat) (q0 : Nat) (qs : List Nat)
    (hb : dat[0]? = some b0) (hk : vp8IsKeyframe b0 = false)
    (hD : D.step st.dec dat = (true, imgs, dd))
    (hseen : stD.seenKeyFrame = true) (hcf : stD.currentFrame = some cf0)
    (hpay : p.payload = q0 :: qs) (hm : p.marker = true)
    (hD2 : D.step stD.dec (cf0 ++ (q0 :: qs)) = (true, imgs2, dd2)) :
    processSample D conv st dat
      = some (⟨st.codecCreated, dd, st.inits⟩, (imgs.take 1).map conv,
          if imgs.isEmpty then [LogEvent.getFrameError] else [])
  ∧ directStep D saveImg stD p = some (⟨dd2, none, true⟩, imgs2.map saveImg) := by
  constructor
  · have h := processSample_nonkeyframe_step D conv st dat b0 true imgs dd hb hk hD
    simpa using h
  · simp [directStep, hpay, hseen, hcf, hm, hD2]

/-- Witness for the amended C8 with the two-image decoder. -/
theorem c8_amended_single_image_witness :
    processSample twoImageDecoder (fun i => i) ⟨true, 0, []⟩ [1]
      = some (⟨true, 1, []⟩,
          (([Image.mk 2 3, Image.mk 4 5].take 1).map fun i => i),
          if ([Image.mk 2 3, Image.mk 4 5] : List Image).isEmpty
          then [LogEvent.getFrameError] else [])
  ∧ directStep twoImageDecoder (fun i => i) ⟨0, some [7], true⟩ ⟨true, true, [1]⟩
      = some (⟨1, none, true⟩, [Image.mk 2 3, Image.mk 4 5].map fun i => i) :=
  c8_amended_single_image twoImageDecoder (fun i => i) (fun i => i) ⟨true, 0, []⟩ [1] 1
    [Image.mk 2 3, Image.mk 4 5] [Image.mk 2 3, Image.mk 4 5] 1 1 ⟨0, some [7], true⟩
    ⟨true, true, [1]⟩ [7] 1 [] rfl rfl rfl rfl rfl rfl rfl rfl

/-- C9 counterexample: on the same keyframe payload, whose geometry bytes
encode 320x240, the buffered path initializes its decoder with the discovered
geometry (320, 240) while the direct path has initialized its decoder with the
fixed geometry (640, 480) — the two ingestion paths do not initialize the
decoder with the same geometry, so they do not implement one and the same
algorithm. -/
theorem c9_counterexample :
    processSample logInitDecoder (fun i => i) ⟨false, [], []⟩
        [0, 0, 0, 0, 0, 0, 64, 1, 240, 0]
      = some (⟨true, [(320, 240)], [(320, 240)]⟩, [], [LogEvent.getFrameError])
  ∧ directRun logInitDecoder (fun i => i) (directInit logInitDecoder)
        [⟨true, true, [0, 0, 0, 0, 0, 0, 64, 1, 240, 0]⟩]
      = some (⟨[(640, 480)], none, true⟩, [])
  ∧ ([(320, 240)] : List (Nat × Nat)) ≠ [(640, 480)] := by
  decide

/-- C9 (amended): the two ingestion paths share only the keyframe test (low
bit of the first payload byte): before any keyframe is seen the direct path
discards exactly the packets that test is false on, while the buffered path
still submits non-keyframe samples to the decoder; a keyframe packet is
consumed by the direct path (its seen-keyframe latch is set); and the direct
path's decoder is initialized with the fixed geometry (640, 480) before any
packet, not with the discovered geometry. -/
theorem c9_amended_paths {δ γ : Type} (D : Decoder δ) (saveImg conv : Image → γ)
    (stD : DirectState δ) (p : VP8Packet) (b0 : Nat) (cf0 : List Nat)
    (stB : SaverState δ) (dat : List Nat)
    (hp : p.payload[0]? = some b0) (hseen : stD.seenKeyFrame = false)
    (hb : dat[0]? = some b0) :
    (vp8IsKeyframe b0 = false → directStep D saveImg stD p = some (stD, []))
  ∧ (vp8IsKeyframe b0 = false →
      ∃ dd out lg, processSample D conv stB dat = some (⟨stB.codecCreated, dd, stB.inits⟩, out, lg))
  ∧ (vp8IsKeyframe b0 = true → stD.currentFrame = some cf0 →
      ∃ r, directStep D saveImg stD p = some r ∧ r.1.seenKeyFrame = true)
  ∧ (directInit D).dec = D.init 640 480 := by
  refine ⟨?_, ?_, ?_, rfl⟩
  · intro hk
    have h1 : b0 &&& 1 = 1 := by
      have hmod := Nat.and_one_is_mod b0
      have : ¬ (b0 &&& 1 = 0) := by simpa [vp8IsKeyframe] using hk
      omega
    simp [directStep, hp, hseen, h1]
  · intro hk
    exact processSample_nonkeyframe D conv stB dat b0 hb hk
  · intro hk hcf
    have h0 : b0 &&& 1 = 0 := by simpa [vp8IsKeyframe] using hk
    have hlen : p.payload ≠ [] := by
      intro h
      rw [h] at hp
      simp at hp
    cases hm : p.marker
    · exact ⟨(⟨stD.dec, some (cf0 ++ p.payload), true⟩, []),
        by simp [directStep, hp, hseen, h0, hcf, hm], rfl⟩
    · rcases hD : D.step stD.dec (cf0 ++ p.payload) with ⟨ok, imgs, dd⟩
      cases ok
      · exact ⟨(⟨dd, some (cf0 ++ p.payload), true⟩, []),
          by simp [directStep, hp, hseen, h0, hcf, hm, hD, hlen], rfl⟩
      · exact ⟨(⟨dd, none, true⟩, imgs.map saveImg),
          by simp [directStep, hp, hseen, h0, hcf, hm, hD, hlen], rfl⟩

/-- Witness for the amended C9: a non-keyframe packet (first byte 1) is
discarded by the fresh direct path while the buffered path still processes the
corresponding sample. -/
theorem c9_amended_paths_witness :
    directStep logInitDecoder (fun i => i) ⟨[(640, 480)], some [], false⟩ ⟨true, true, [1]⟩
      = some (⟨[(640, 480)], some [], false⟩, []) :=
  (c9_amended_paths logInitDecoder (fun i => i) (fun i => i) ⟨[(640, 480)], some [], false⟩
    ⟨true, true, [1]⟩ 1 [] ⟨false, [], []⟩ [1] rfl rfl rfl).1 rfl
